import Mathlib

/-!
Verification of the typed site-configuration and content-metadata schema of a
personal blog.  The repository's source provides the literal configuration
constants (`SITE`, `HOME`, `SOCIALS` in `consts.ts`) and the frontmatter blocks
of its markdown posts; the validation operations described by the specification
have no implementation under the source tree, so they are modelled here from
the specification's words and the concrete data is embedded verbatim from the
source files.
-/

deriving instance DecidableEq for Except

namespace Blog

/-! ## Calendar dates -/

/-- A calendar date with numeric year, month and day. -/
structure CalDate where
  year : Nat
  month : Nat
  day : Nat
deriving DecidableEq

/-- Gregorian leap-year test. -/
def isLeap (y : Nat) : Bool :=
  (y % 4 == 0 && y % 100 != 0) || y % 400 == 0

/-- Number of days in a month of a given year. -/
def daysInMonth (y m : Nat) : Nat :=
  if m = 2 then (if isLeap y then 29 else 28)
  else if m = 4 ∨ m = 6 ∨ m = 9 ∨ m = 11 then 30
  else 31

/-- Split a character list at every dash. -/
def splitDash : List Char → List (List Char)
  | [] => [[]]
  | c :: rest =>
    match splitDash rest with
    | [] => if c = '-' then [[], [c]] else [[c]]
    | h :: t => if c = '-' then [] :: h :: t else (c :: h) :: t

/-- Read a non-empty all-digit character list as a natural number. -/
def digitsToNat? (l : List Char) : Option Nat :=
  if l ≠ [] ∧ l.all Char.isDigit then
    some (l.foldl (fun n c => n * 10 + (c.toNat - 48)) 0)
  else none

/-- Modelled from the spec: `date` "must parse to a valid calendar date"
(§4.3); the source has no parser of its own.  Accepts `YYYY-MM-DD` scalars
and rejects everything else, including out-of-range months and days. -/
def parseDate (s : String) : Option CalDate :=
  match splitDash s.toList with
  | [ys, ms, ds] =>
    match digitsToNat? ys, digitsToNat? ms, digitsToNat? ds with
    | some y, some m, some d =>
      if 1 ≤ m ∧ m ≤ 12 ∧ 1 ≤ d ∧ d ≤ daysInMonth y m then some ⟨y, m, d⟩
      else none
    | _, _, _ => none
  | _ => none

/-- Total sort key for dates: chronological order coincides with the numeric
order of the key. -/
def dateKey (d : CalDate) : Nat :=
  d.year * 10000 + d.month * 100 + d.day

/-! ## Frontmatter scalars

A frontmatter mapping is a sequence of key/value pairs of scalar text.  In the
source files a scalar value is written either bare (`date: 2025-12-18`) or
double-quoted (`date: "2025-12-12"`); the quoted form denotes the same text
with the surrounding quotes stripped. -/

/-- Strip one pair of surrounding double quotes from a scalar, if present. -/
def unquoteChars (l : List Char) : List Char :=
  match l with
  | '"' :: rest =>
    if rest ≠ [] ∧ rest.getLast? = some '"' then rest.dropLast else l
  | _ => l

/-- Scalar parsing of a raw frontmatter value as written in a source file. -/
def unquote (s : String) : String :=
  String.mk (unquoteChars s.toList)

/-- A frontmatter mapping: string keys to scalar string values. -/
def Fm : Type := List (String × String)

/-- Key lookup in a frontmatter mapping (first binding wins). -/
def fmLookup (m : Fm) (k : String) : Option String :=
  match m with
  | [] => none
  | (k', v) :: rest => if k' = k then some v else fmLookup rest k

/-- A raw frontmatter block as written in a file, and its scalar-parsed form:
every value has its surrounding quotes stripped. -/
def fmOfRaw (m : List (String × String)) : Fm :=
  m.map (fun kv => (kv.1, unquote kv.2))

/-! ## Post metadata and its validator -/

/-- Modelled from the spec: `PostMetadata` (§3) — `title`, optional
`description`, a calendar `date`, optional `author`. -/
structure PostMetadata where
  title : String
  description : Option String
  date : CalDate
  author : Option String
deriving DecidableEq

/-- Modelled from the spec: the error taxonomy of §7 relevant to post
metadata. -/
inductive PMError where
  | MissingField (field : String)
  | InvalidDate (raw : String)
deriving DecidableEq

/-- Modelled from the spec: the post-metadata `validate` operation (§4.3).
`title` and `date` must be present (`MissingField` otherwise, `title`
checked first), `date` must parse (`InvalidDate` carrying the raw value
otherwise); `description` and `author` are passed through optionally. -/
def validatePost (raw : Fm) : Except PMError PostMetadata :=
  match fmLookup raw "title" with
  | none => .error (.MissingField "title")
  | some t =>
    match fmLookup raw "date" with
    | none => .error (.MissingField "date")
    | some d =>
      match parseDate d with
      | none => .error (.InvalidDate d)
      | some dd =>
        .ok { title := t
              description := fmLookup raw "description"
              date := dd
              author := fmLookup raw "author" }

/-! ## Social links and their validator -/

/-- A social-link entry, field names as in `consts.ts`. -/
structure SocialEntry where
  NAME : String
  HREF : String
deriving DecidableEq

/-- Modelled from the spec: the closed set of recognized platform
identifiers (§3, "e.g. github, linkedin"); these are the two platforms the
source's `SOCIALS` uses. -/
def recognizedNames : List String := ["github", "linkedin"]

/-- Membership in the closed platform set. -/
def isRecognizedName (s : String) : Bool :=
  recognizedNames.any fun n => decide (n = s)

/-- Modelled from the spec: `href` must be "a well-formed absolute URL"
(§3): a non-empty alphabetic scheme, the separator `://`, a non-empty
remainder, and no spaces anywhere. -/
def isAbsoluteUrl (s : String) : Bool :=
  let l := s.toList
  let scheme := l.takeWhile Char.isAlpha
  decide (scheme ≠ []) &&
    (match l.drop scheme.length with
     | ':' :: '/' :: '/' :: tail =>
       decide (tail ≠ []) && l.all fun c => decide (c ≠ ' ')
     | _ => false)

/-- The two rules a social-link entry can violate. -/
inductive SocialRule where
  | unrecognizedName
  | malformedHref
deriving DecidableEq

/-- Modelled from the spec: a `SchemaViolation` identifies the offending
entry's index and the violated rule (§4.2). -/
structure SchemaViolation where
  index : Nat
  rule : SocialRule
deriving DecidableEq

/-- Check a single entry; the name rule is checked before the href rule
(first-detected-rule policy, §8). -/
def checkEntry (e : SocialEntry) : Option SocialRule :=
  if isRecognizedName e.NAME = false then some .unrecognizedName
  else if isAbsoluteUrl e.HREF = false then some .malformedHref
  else none

/-- Validation of a social-link sequence starting at index `i`: all-or-nothing,
first violation aborts. -/
def validateSocialsFrom (i : Nat) :
    List SocialEntry → Except SchemaViolation (List SocialEntry)
  | [] => .ok []
  | e :: rest =>
    match checkEntry e with
    | some r => .error ⟨i, r⟩
    | none =>
      match validateSocialsFrom (i + 1) rest with
      | .ok tail => .ok (e :: tail)
      | .error v => .error v

/-- Modelled from the spec: the social-link `validate` operation (§4.2). -/
def validateSocials (es : List SocialEntry) :
    Except SchemaViolation (List SocialEntry) :=
  validateSocialsFrom 0 es

/-! ## Configuration constants, from `src/consts.ts` -/

/-- The `Site` shape, field names as in the source's `Site` type. -/
structure Site where
  NAME : String
  AUTHOR : String
  EMAIL : String
deriving DecidableEq

/-- The home-page `Metadata` shape. -/
structure Metadata where
  TITLE : String
  DESCRIPTION : String
deriving DecidableEq

/-- `SITE` from `consts.ts`. -/
def SITE : Site :=
  { NAME := "Altinok Darici's blog"
    AUTHOR := "Altinok Darici"
    EMAIL := "" }

/-- `HOME` from `consts.ts`. -/
def HOME : Metadata :=
  { TITLE := "Altinok Darici's blog"
    DESCRIPTION := "Personal blog of Altinok Darici" }

/-- `SOCIALS` from `consts.ts`. -/
def SOCIALS : List SocialEntry :=
  [ { NAME := "github", HREF := "https://github.com/altinokdarici" },
    { NAME := "linkedin", HREF := "https://www.linkedin.com/in/altinokdarici" } ]

/-! ## Ordering policy for listings

Modelled from the spec (§4.3): posts are sorted by `date` descending, ties
broken by original declaration order (stable sort).  A stable insertion sort:
`sortPosts` inserts elements right to left, and `insertPost` moves a past an
element only when its date is strictly smaller, so equal dates keep their
original relative order. -/

/-- Insert a post into a date-descending list, stably. -/
def insertPost (a : PostMetadata) : List PostMetadata → List PostMetadata
  | [] => [a]
  | b :: l =>
    if dateKey a.date < dateKey b.date then b :: insertPost a l
    else a :: b :: l

/-- Stable sort by date descending. -/
def sortPosts (l : List PostMetadata) : List PostMetadata :=
  l.foldr insertPost []

/-- Date-descending sortedness. -/
def sortedDesc (l : List PostMetadata) : Prop :=
  List.Pairwise (fun a b => dateKey b.date ≤ dateKey a.date) l

theorem mem_insertPost {a x : PostMetadata} {l : List PostMetadata} :
    x ∈ insertPost a l ↔ x = a ∨ x ∈ l := by
  induction l with
  | nil => simp [insertPost]
  | cons b t ih =>
    by_cases h : dateKey a.date < dateKey b.date
    · simp only [insertPost, if_pos h, List.mem_cons, ih]
      tauto
    · simp only [insertPost, if_neg h, List.mem_cons]

theorem sortedDesc_insertPost {a : PostMetadata} {l : List PostMetadata}
    (h : sortedDesc l) : sortedDesc (insertPost a l) := by
  induction l with
  | nil => simp [insertPost, sortedDesc]
  | cons b t ih =>
    rcases List.pairwise_cons.mp h with ⟨hb, ht⟩
    by_cases hlt : dateKey a.date < dateKey b.date
    · rw [sortedDesc, insertPost, if_pos hlt, List.pairwise_cons]
      refine ⟨fun x hx => ?_, ih ht⟩
      rcases mem_insertPost.mp hx with hxa | hxt
      · exact hxa ▸ Nat.le_of_lt hlt
      · exact hb x hxt
    · rw [sortedDesc, insertPost, if_neg hlt, List.pairwise_cons]
      refine ⟨fun x hx => ?_, h⟩
      rcases List.mem_cons.mp hx with hxb | hxt
      · exact hxb ▸ Nat.le_of_not_lt hlt
      · exact Nat.le_trans (hb x hxt) (Nat.le_of_not_lt hlt)

theorem sortedDesc_sortPosts (l : List PostMetadata) : sortedDesc (sortPosts l) := by
  induction l with
  | nil => simp [sortPosts, sortedDesc]
  | cons a t ih => exact sortedDesc_insertPost ih

theorem insertPost_eq_cons {a : PostMetadata} {l : List PostMetadata}
    (h : ∀ b ∈ l, dateKey b.date ≤ dateKey a.date) : insertPost a l = a :: l := by
  cases l with
  | nil => rfl
  | cons b t =>
    have hb : dateKey b.date ≤ dateKey a.date := h b (List.mem_cons_self b t)
    rw [insertPost, if_neg (Nat.not_lt.mpr hb)]

theorem sortPosts_eq_self {l : List PostMetadata} (h : sortedDesc l) :
    sortPosts l = l := by
  induction l with
  | nil => rfl
  | cons a t ih =>
    rcases List.pairwise_cons.mp h with ⟨ha, ht⟩
    show insertPost a (sortPosts t) = a :: t
    rw [ih ht, insertPost_eq_cons ha]

/-! ## A small operational model of the core

Modelled from the spec (§4.1, §5): the core's state is the loaded
configuration; every operation is pure and leaves it untouched, and `load`
returns the configuration values. -/

/-- The operations the core offers. -/
inductive Op where
  | loadOp
  | validatePostOp (raw : Fm)
  | validateSocialsOp (es : List SocialEntry)

/-- The outputs the operations produce. -/
inductive Out where
  | loaded (site : Site) (home : Metadata) (socials : List SocialEntry)
  | postResult (r : Except PMError PostMetadata)
  | socialResult (r : Except SchemaViolation (List SocialEntry))

/-- The core's process-wide state: the loaded configuration records. -/
structure CoreState where
  site : Site
  home : Metadata
  socials : List SocialEntry
deriving DecidableEq

/-- The state after configuration load: the literal constants of `consts.ts`. -/
def initState : CoreState := ⟨SITE, HOME, SOCIALS⟩

/-- One operation: no operation writes the state. -/
def step (st : CoreState) : Op → CoreState × Out
  | .loadOp => (st, .loaded st.site st.home st.socials)
  | .validatePostOp raw => (st, .postResult (validatePost raw))
  | .validateSocialsOp es => (st, .socialResult (validateSocials es))

/-- Run a sequence of operations, collecting the outputs. -/
def run : CoreState → List Op → CoreState × List Out
  | st, [] => (st, [])
  | st, op :: ops =>
    let p := step st op
    let q := run p.1 ops
    (q.1, p.2 :: q.2)

/-- Does an output, if it is a `load` result, carry exactly the site `s`? -/
def loadedSiteIs (s : Site) : Out → Bool
  | .loaded site _ _ => decide (site = s)
  | _ => true

/-- The near-duplicate configuration object that appears verbatim inside the
body of `posts/2025-12-18-stop-writing-static-classes-in-typescript.md`
(prose content, not loaded configuration): its `SITE` literal has only
`NAME` and `EMAIL`, no `AUTHOR`. -/
def postBodyConfig : List (String × String) :=
  [("NAME", "Altinok Darici"), ("EMAIL", "")]

/-! ## The frontmatter blocks present in the repository's content files -/

/-- Frontmatter of `posts/2025-12-18-stop-writing-static-classes-in-typescript.md`
(lines 1-5): quoted title, bare date scalar, bare author, no description. -/
def fmStopStatic : List (String × String) :=
  [ ("title", "\"Stop Writing Static Classes in TypeScript\""),
    ("date", "2025-12-18"),
    ("author", "altinokdarici") ]

/-- Frontmatter of the post "The Mental Shift: Java and C# to TypeScript". -/
def fmMentalShift : List (String × String) :=
  [ ("title", "\"The Mental Shift: Java and C# to TypeScript\""),
    ("description", "\"The syntax may look familiar, but idiomatic TypeScript is fundamentally different from Java and C#. Here\x27s the mental shift required to write TypeScript that fits the language.\""),
    ("date", "2025-12-18") ]

/-- Frontmatter of the post "The Shared Instance That Leaked User Data". -/
def fmSharedInstance : List (String × String) :=
  [ ("title", "\"The Shared Instance That Leaked User Data\""),
    ("description", "\"A subtle Node.js bug where module-scoped instances holding request-scoped state can leak data between users due to the single-threaded event loop.\""),
    ("date", "2025-12-18") ]

/-- Frontmatter of the post "How JavaScript Modules Actually Work". -/
def fmModulesWork : List (String × String) :=
  [ ("title", "\"How JavaScript Modules Actually Work\""),
    ("description", "\"Understanding how JavaScript\x27s module cache works will change how you think about dependency management—and why IoC containers are often unnecessary.\""),
    ("date", "2025-12-18") ]

/-- Frontmatter of the post "One PR. One Purpose." — the only block whose
date scalar is written quoted. -/
def fmOnePR : List (String × String) :=
  [ ("title", "\"One PR. One Purpose.\""),
    ("description", "\"Mixing unrelated changes in a single PR is careless. It makes reviews harder, hides bugs, slows teams down, and turns reverts into nightmares.\""),
    ("date", "\"2025-12-12\"") ]

/-- Frontmatter of `src/content/blog/use-module-system-to-write-better-unit-tests/index.md`. -/
def fmUseModuleSystem : List (String × String) :=
  [ ("title", "\"Use the Module System to Write Better Unit Tests\""),
    ("description", "\"JavaScript\x27s module system provides dependency injection for free. Learn how to write simpler, more testable code without IoC containers or constructor injection.\""),
    ("date", "2025-12-18") ]

/-- Frontmatter of the second "Stop Writing Static Classes in TypeScript"
block (the variant with a description and no author). -/
def fmStopStaticDup : List (String × String) :=
  [ ("title", "\"Stop Writing Static Classes in TypeScript\""),
    ("description", "\"Learn why static classes can be problematic in TypeScript and discover better alternatives for writing cleaner, more maintainable code.\""),
    ("date", "2025-12-18") ]

/-- Frontmatter of `src/content/blog/understanding-typescript-structural-typing/index.md`. -/
def fmStructuralTyping : List (String × String) :=
  [ ("title", "\"If It Looks Like a Duck: Understanding TypeScript\x27s Structural Typing\""),
    ("description", "\"TypeScript uses structural typing—if it has the right shape, it works. Here\x27s how this differs from Java and C#\x27s nominal typing and why it matters.\""),
    ("date", "2025-12-18") ]

/-- Every frontmatter block present in the repository's content files, in
file order. -/
def repoFrontmatter : List (List (String × String)) :=
  [ fmStopStatic, fmMentalShift, fmSharedInstance, fmModulesWork,
    fmOnePR, fmUseModuleSystem, fmStopStaticDup, fmStructuralTyping ]

/-- A frontmatter block validates and yields a non-empty title. -/
def postOkNonemptyTitle (m : List (String × String)) : Bool :=
  match validatePost (fmOfRaw m) with
  | .ok r => decide (r.title ≠ "")
  | .error _ => false

/-- The repository's posts as validated metadata records. -/
def repoPosts : List PostMetadata :=
  repoFrontmatter.filterMap fun m => (validatePost (fmOfRaw m)).toOption

/-- Characterization of `validateSocialsFrom`: either the whole suffix is
valid and returned unchanged, or the first offending entry aborts validation
with its absolute index and rule. -/
theorem validateSocialsFrom_spec (es : List SocialEntry) (i : Nat) :
    (validateSocialsFrom i es = .ok es ∧
      es.all (fun e => (checkEntry e).isNone) = true) ∨
    (∃ v p e s, validateSocialsFrom i es = .error v ∧ es = p ++ e :: s ∧
      v.index = i + p.length ∧ checkEntry e = some v.rule ∧
      p.all (fun x => (checkEntry x).isNone) = true) := by
  induction es generalizing i with
  | nil => exact Or.inl ⟨rfl, rfl⟩
  | cons e rest ih =>
    cases hce : checkEntry e with
    | some r =>
      refine Or.inr ⟨⟨i, r⟩, [], e, rest, ?_, rfl, by simp, hce, rfl⟩
      simp [validateSocialsFrom, hce]
    | none =>
      rcases ih (i + 1) with ⟨hok, hall⟩ | ⟨v, p, e', s, herr, heq, hidx, hrule, hall⟩
      · refine Or.inl ⟨?_, ?_⟩
        · simp [validateSocialsFrom, hce, hok]
        · simp [List.all_cons, hce, hall]
      · refine Or.inr ⟨v, e :: p, e', s, ?_, by simp [heq], ?_, hrule, ?_⟩
        · simp [validateSocialsFrom, hce, herr]
        · simp only [hidx, List.length_cons]; omega
        · simp [List.all_cons, hce, hall]

/-- No sequence of core operations changes the state. -/
theorem run_state (st : CoreState) (l : List Op) : (run st l).1 = st := by
  induction l generalizing st with
  | nil => rfl
  | cons op rest ih =>
    cases op with
    | loadOp => exact ih st
    | validatePostOp raw => exact ih st
    | validateSocialsOp es => exact ih st

/-- Every `load` output carries exactly the state's site. -/
theorem run_outputs (st : CoreState) (l : List Op) :
    (run st l).2.all (loadedSiteIs st.site) = true := by
  induction l generalizing st with
  | nil => rfl
  | cons op rest ih =>
    cases op with
    | loadOp =>
      show (loadedSiteIs st.site (.loaded st.site st.home st.socials) &&
        (run st rest).2.all (loadedSiteIs st.site)) = true
      simp [loadedSiteIs, ih st]
    | validatePostOp raw =>
      show (loadedSiteIs st.site (.postResult (validatePost raw)) &&
        (run st rest).2.all (loadedSiteIs st.site)) = true
      simp [loadedSiteIs, ih st]
    | validateSocialsOp es =>
      show (loadedSiteIs st.site (.socialResult (validateSocials es)) &&
        (run st rest).2.all (loadedSiteIs st.site)) = true
      simp [loadedSiteIs, ih st]

end Blog

namespace Blog

/-- C1: for every frontmatter mapping that contains a `title` and a `date`
parseable as a calendar date, `validatePost` succeeds and returns a
`PostMetadata` whose `title` and `date` equal the input values exactly. -/
theorem validatePost_preserves_title_and_date (m : Fm) (t d : String)
    (dd : CalDate) (ht : fmLookup m "title" = some t)
    (hd : fmLookup m "date" = some d) (hp : parseDate d = some dd) :
    validatePost m = .ok { title := t, description := fmLookup m "description",
                           date := dd, author := fmLookup m "author" } := by
  simp [validatePost, ht, hd, hp]

/-- C1 witness: on the actual frontmatter of the static-classes post (which
omits `description`), validation succeeds with the title returned verbatim. -/
theorem validatePost_preserves_title_and_date_witness :
    validatePost [("title", "Stop Writing Static Classes in TypeScript"),
                  ("date", "2025-12-18")] =
      .ok { title := "Stop Writing Static Classes in TypeScript",
            description := none, date := ⟨2025, 12, 18⟩, author := none } :=
  validatePost_preserves_title_and_date
    [("title", "Stop Writing Static Classes in TypeScript"),
     ("date", "2025-12-18")]
    "Stop Writing Static Classes in TypeScript" "2025-12-18" ⟨2025, 12, 18⟩
    (by decide) (by decide) (by decide)

/-- C2: for every frontmatter mapping without a `title` key, `validatePost`
fails with `MissingField "title"`. -/
theorem validatePost_missing_title (m : Fm)
    (h : fmLookup m "title" = none) :
    validatePost m = .error (.MissingField "title") := by
  simp [validatePost, h]

/-- C2 witness: a mapping carrying only a date is rejected for the missing
title. -/
theorem validatePost_missing_title_witness :
    validatePost [("date", "2025-12-18")] = .error (.MissingField "title") :=
  validatePost_missing_title [("date", "2025-12-18")] (by decide)

/-- C3: for every frontmatter mapping whose `title` is present but whose
`date` value does not parse as a calendar date, `validatePost` fails with
`InvalidDate` carrying the raw unparsed value. -/
theorem validatePost_invalid_date (m : Fm) (t d : String)
    (ht : fmLookup m "title" = some t) (hd : fmLookup m "date" = some d)
    (hp : parseDate d = none) :
    validatePost m = .error (.InvalidDate d) := by
  simp [validatePost, ht, hd, hp]

/-- C3 witness: the date scalar "not-a-date" is rejected as `InvalidDate`
with the raw value carried in the error. -/
theorem validatePost_invalid_date_witness :
    validatePost [("title", "A Post"), ("date", "not-a-date")] =
      .error (.InvalidDate "not-a-date") :=
  validatePost_invalid_date [("title", "A Post"), ("date", "not-a-date")]
    "A Post" "not-a-date" (by decide) (by decide) (by decide)

/-- C4: social-link validation is all-or-nothing and order-preserving: it
either returns exactly the input sequence, with every entry passing both
rules, or it fails with a `SchemaViolation` naming the index of the first
offending entry (everything before it passes) and its violated rule, and
returns no partial sequence. -/
theorem validateSocials_all_or_nothing (es : List SocialEntry) :
    (validateSocials es = .ok es ∧
      es.all (fun e => (checkEntry e).isNone) = true) ∨
    (∃ v p e s, validateSocials es = .error v ∧ es = p ++ e :: s ∧
      v.index = p.length ∧ checkEntry e = some v.rule ∧
      p.all (fun x => (checkEntry x).isNone) = true) := by
  rcases validateSocialsFrom_spec es 0 with h | ⟨v, p, e, s, h1, h2, h3, h4, h5⟩
  · exact Or.inl h
  · exact Or.inr ⟨v, p, e, s, h1, h2, by omega, h4, h5⟩

/-- C5: validating the concrete `SOCIALS` of `consts.ts` succeeds and
returns the two-entry sequence unchanged; in particular the github entry is
returned unchanged in first position. -/
theorem validateSocials_on_SOCIALS :
    validateSocials SOCIALS = .ok SOCIALS ∧
    SOCIALS.head? = some ⟨"github", "https://github.com/altinokdarici"⟩ := by
  decide

/-- C6: the date-descending stable sort is idempotent: sorting an
already-sorted sequence of `PostMetadata` yields the same sequence. -/
theorem sortPosts_idempotent (l : List PostMetadata) :
    sortPosts (sortPosts l) = sortPosts l :=
  sortPosts_eq_self (sortedDesc_sortPosts l)

/-- C7: the entry with name "twitter" and href "not a url" violates both
rules, and validation reports the unrecognized-name violation: the name rule
is checked before the href rule. -/
theorem validateSocials_twitter_name_rule_first :
    isRecognizedName "twitter" = false ∧
    isAbsoluteUrl "not a url" = false ∧
    validateSocials [⟨"twitter", "not a url"⟩] =
      .error ⟨0, .unrecognizedName⟩ := by
  decide

/-- C8: one immutable `Site` per process lifetime: from the loaded
configuration, every sequence of core operations leaves the state exactly
`initState`, every `load` output carries exactly `SITE`, while the
near-duplicate configuration object in the post body has no `AUTHOR` field
(it is content, not loaded configuration). -/
theorem site_singleton_invariant (ops : List Op) :
    (run initState ops).1 = initState ∧
    (run initState ops).2.all (loadedSiteIs SITE) = true ∧
    fmLookup postBodyConfig "AUTHOR" = none ∧
    SITE.AUTHOR = "Altinok Darici" :=
  ⟨run_state initState ops, run_outputs initState ops, by decide, rfl⟩

/-- C9: every frontmatter block present in the repository's content files
validates with a non-empty title and a parseable date; exactly one block
omits `description` and exactly one declares an `author`. -/
theorem repo_frontmatter_all_valid :
    repoFrontmatter.all postOkNonemptyTitle = true ∧
    (repoFrontmatter.countP
      fun m => (fmLookup (fmOfRaw m) "description").isNone) = 1 ∧
    (repoFrontmatter.countP
      fun m => (fmLookup (fmOfRaw m) "author").isSome) = 1 := by
  decide

/-- C10: the validator accepts a bare date scalar (`date: 2025-12-18`) and a
quoted one (`date: "2025-12-12"`) alike; the two parse to comparable
calendar dates, and under the date-descending sort the post dated
2025-12-12 comes strictly after every post dated 2025-12-18: it is last,
with all earlier entries dated 2025-12-18. -/
theorem date_scalar_forms_and_ordering :
    validatePost (fmOfRaw fmStopStatic) =
      .ok { title := "Stop Writing Static Classes in TypeScript",
            description := none, date := ⟨2025, 12, 18⟩,
            author := some "altinokdarici" } ∧
    validatePost (fmOfRaw fmOnePR) =
      .ok { title := "One PR. One Purpose.",
            description := some "Mixing unrelated changes in a single PR is careless. It makes reviews harder, hides bugs, slows teams down, and turns reverts into nightmares.",
            date := ⟨2025, 12, 12⟩, author := none } ∧
    dateKey ⟨2025, 12, 12⟩ < dateKey ⟨2025, 12, 18⟩ ∧
    (sortPosts repoPosts).getLast? =
      some { title := "One PR. One Purpose.",
             description := some "Mixing unrelated changes in a single PR is careless. It makes reviews harder, hides bugs, slows teams down, and turns reverts into nightmares.",
             date := ⟨2025, 12, 12⟩, author := none } ∧
    (sortPosts repoPosts).dropLast.all
      (fun r => decide (r.date = ⟨2025, 12, 18⟩)) = true := by
  decide

end Blog
